import Mathlib

/-!
Verification of the internship filtering and ranking pipeline.

The development shallowly embeds the logic core of the repository
(`filter.py`: class `InternshipFilter`; `scraper.py`: the enrichment helpers
`_extract_stipend`, `_calculate_days_old`, `_calculate_relevance_score`)
as executable Lean functions over rationals, and proves the testable
properties of the specification against them.

Modelling conventions:
- A pandas DataFrame of postings is a `List Posting`; a missing (NaN) cell is
  `Option.none`.
- Python floats are modelled as `ℚ`; `round(x, 2)` / `Series.round(2)` use
  round-half-to-even, embedded as `round2`.
- `DataFrame.sort_values(by, ascending=False)` is implemented by pandas
  (`nargsort`) as an ascending argsort whose indexer is then reversed; the
  ascending sort is stable on the small-array regime of the underlying
  introsort, modelled here as a stable insertion sort followed by `reverse`.
-/

attribute [local semireducible] Rat.add Rat.sub Rat.mul Rat.inv

/-- Python whitespace class used by `str.strip` and the regex class,
restricted to the ASCII range. -/
def pyIsSpace (c : Char) : Bool :=
  c = ' ' || c = '\t' || c = '\n' || c = '\r' || c = '\x0b' || c = '\x0c'

/-- Python `str.lower()`; character-wise lowercasing (ASCII-relevant),
written over the character list so that it kernel-reduces. -/
def pyToLower (s : String) : String := String.mk (s.toList.map Char.toLower)

/-- Python `str.strip()` on ASCII whitespace. -/
def pyStrip (s : String) : String :=
  String.mk (((s.toList.dropWhile pyIsSpace).reverse.dropWhile pyIsSpace).reverse)

/-- Python substring test `needle in hay`. -/
def strContains (hay needle : String) : Bool :=
  hay.toList.tails.any (fun t => needle.toList.isPrefixOf t)

/-- Executable floor of a rational (`⌊x⌋`; kernel-reducible, unlike the
`FloorRing` projection). -/
def ratFloor (x : ℚ) : ℤ := x.num / (x.den : ℤ)

/-- Round-half-to-even to an integer, the rounding used by Python `round`
and numpy. -/
def roundHalfEven (x : ℚ) : ℤ :=
  let f := ratFloor x
  if x - f < 1/2 then f
  else if 1/2 < x - f then f + 1
  else if f % 2 = 0 then f else f + 1

/-- Python `round(x, 2)` and pandas `Series.round(2)`. -/
def round2 (x : ℚ) : ℚ := (roundHalfEven (x * 100) : ℚ) / 100

/-- One row of the postings DataFrame handed to `InternshipFilter`.
A `none` field models a NaN cell.  `days_old` uses 999 as the
unknown-age sentinel (scraper.py `_calculate_days_old`). -/
structure Posting where
  title : Option String
  company : Option String
  location : Option String
  description : Option String
  apply_url : Option String
  stipend : Option ℚ
  days_old : Option ℤ
  relevance_score : Option ℚ
deriving DecidableEq

/-- Row predicate of `df[df['stipend'] >= min_stipend]` (filter.py line 98);
a NaN stipend compares as False. -/
def stipendPred (min_stipend : ℚ) (p : Posting) : Bool :=
  match p.stipend with
  | some s => decide (min_stipend ≤ s)
  | none => false

/-- Row predicate of `df[(df['days_old'] <= max_days_old) | (df['days_old'] == 999)]`
(filter.py line 104); a NaN age compares as False on both sides. -/
def agePred (max_days_old : ℤ) (p : Posting) : Bool :=
  match p.days_old with
  | some d => decide (d ≤ max_days_old) || decide (d = 999)
  | none => false

/-- Row predicate of `df.dropna(subset=['title', 'company', 'apply_url'])`
(filter.py line 108). -/
def criticalFieldsPred (p : Posting) : Bool :=
  p.title.isSome && p.company.isSome && p.apply_url.isSome

/-- Row predicate of `df[df['apply_url'].astype(str).str.strip() != '']`
(filter.py line 111); `astype(str)` renders a NaN cell as the text nan. -/
def urlPred (p : Posting) : Bool :=
  match p.apply_url with
  | some u => !(pyStrip u == "")
  | none => !(pyStrip ("nan") == "")

/-- Row predicate of `df[df['relevance_score'].fillna(0) >= 0.1]`
(filter.py line 115). -/
def relevancePred (p : Posting) : Bool :=
  decide ((1 : ℚ)/10 ≤ p.relevance_score.getD 0)

/-- The guarded minimum-stipend filter, filter.py lines 97-99. -/
def stipendFilterStep (ps : List Posting) (min_stipend : ℚ) : List Posting :=
  if 0 < min_stipend then ps.filter (stipendPred min_stipend) else ps

/-- The guarded maximum-age filter, filter.py lines 102-105: it runs only when
`max_days_old` is below the unknown-age sentinel 999, and keeps rows whose age
is within the limit or equal to the sentinel. -/
def ageFilterStep (ps : List Posting) (max_days_old : ℤ) : List Posting :=
  if max_days_old < 999 then ps.filter (agePred max_days_old) else ps

/-- `InternshipFilter._apply_filters` (filter.py lines 82-118): stipend filter,
age filter, dropna on critical fields, non-empty apply URL, relevance floor. -/
def applyFilters (ps : List Posting) (min_stipend : ℚ) (max_days_old : ℤ) :
    List Posting :=
  ((((ageFilterStep (stipendFilterStep ps min_stipend) max_days_old).filter
    criticalFieldsPred).filter urlPred).filter relevancePred)

/-- The allow-list `InternshipFilter.prestigious_companies`
(filter.py lines 25-33); membership tests are order-independent,
so the Python set is modelled as a list. -/
def prestigious_companies : List String :=
  ["google", "microsoft", "apple", "amazon", "meta", "facebook",
   "netflix", "uber", "airbnb", "spotify", "twitter", "linkedin",
   "salesforce", "oracle", "ibm", "intel", "nvidia", "tesla",
   "spacex", "palantir", "stripe", "square", "paypal", "visa",
   "mastercard", "goldman sachs", "morgan stanley", "jpmorgan",
   "mckinsey", "bain", "bcg", "deloitte", "pwc", "kpmg",
   "accenture", "cognizant", "infosys", "tcs", "wipro"]

/-- The startup indicator tokens of `_calculate_company_reputation`
(filter.py line 210). -/
def startup_indicators : List String :=
  ["inc", "llc", "corp", "ltd", "startup", "tech", "software"]

/-- `InternshipFilter._calculate_company_reputation` (filter.py lines
181-215): 1.0 for an allow-listed employer substring, 0.5 for a generic
corporate token, 0.3 default, 0.0 for a missing or blank name. -/
def calcCompanyReputation (company : Option String) : ℚ :=
  match company with
  | none => 0
  | some c =>
    let cs := pyStrip (pyToLower c)
    if cs = "" then 0
    else if prestigious_companies.any (fun pc => strContains cs pc) then 1
    else if startup_indicators.any (fun ind => strContains cs ind) then 1/2
    else 3/10

/-- `InternshipFilter._calculate_recency_score` (filter.py lines 161-179):
fill NaN ages with 999, replace the 999 sentinel by 30, then
`clip(1 - days/30, 0, 1)`. -/
def calcRecencyScore (days_old : Option ℤ) : ℚ :=
  let d0 : ℤ := days_old.getD 999
  let d : ℤ := if d0 = 999 then 30 else d0
  max 0 (min 1 (1 - (d : ℚ) / 30))

/-- A row of the DataFrame after `_calculate_ranking_scores` added the four
normalized sub-score columns and the weighted `final_score` column. -/
structure ScoredPosting where
  posting : Posting
  relevance_normalized : ℚ
  stipend_normalized : ℚ
  recency_normalized : ℚ
  company_reputation_normalized : ℚ
  final_score : ℚ
deriving DecidableEq

/-- The in-place update `df['stipend'] = df['stipend'].fillna(0)`
(filter.py line 135). -/
def fillStipend (p : Posting) : Posting := { p with stipend := some (p.stipend.getD 0) }

/-- `df['stipend'].max()` (filter.py line 136): the maximum over the
fillna-ed stipend column, `none` (NaN) for an empty frame. -/
def maxStipend (ps : List Posting) : Option ℚ := (ps.map (fun p => p.stipend.getD 0)).max?

/-- The guard `max_stipend > 0` of filter.py line 137; a NaN maximum
(empty frame) compares as False. -/
def maxStipendPos (m : Option ℚ) : Bool :=
  match m with
  | some v => decide (0 < v)
  | none => false

/-- Per-row score computation of `_calculate_ranking_scores` (filter.py lines
131-157) given the column-wide stipend maximum `m`: the four normalized
sub-scores and the weighted final score rounded to 2 decimals, with weights
0.4 / 0.3 / 0.2 / 0.1 (filter.py lines 17-22). -/
def scoreOne (m : Option ℚ) (p : Posting) : ScoredPosting :=
  let rn := p.relevance_score.getD 0 / 10
  let sn := if maxStipendPos m then max 0 (min 1 (p.stipend.getD 0 / m.getD 0)) else 0
  let cn := calcRecencyScore p.days_old
  let pn := calcCompanyReputation p.company
  let fs := round2 (rn * (2/5) + sn * (3/10) + cn * (1/5) + pn * (1/10))
  ⟨p, rn, sn, cn, pn, fs⟩

/-- `InternshipFilter._calculate_ranking_scores` (filter.py lines 120-159).
The `user_skills` argument is accepted and unused, as in the source. -/
def calcRankingScores (ps : List Posting) (user_skills : List String) : List ScoredPosting :=
  let filled := ps.map fillStipend
  filled.map (scoreOne (maxStipend filled))

/-- Comparison key of `df.sort_values('final_score', ...)`. -/
def scoreLE (a b : ScoredPosting) : Prop := a.final_score ≤ b.final_score

instance : DecidableRel scoreLE :=
  fun a b => inferInstanceAs (Decidable (a.final_score ≤ b.final_score))

instance : IsTotal ScoredPosting scoreLE :=
  ⟨fun a b => le_total a.final_score b.final_score⟩

instance : IsTrans ScoredPosting scoreLE :=
  ⟨fun _ _ _ hab hbc => le_trans hab hbc⟩

/-- `df.sort_values('final_score', ascending=False)` (filter.py line 74).
pandas computes the ascending argsort of the key column and reverses the
resulting indexer; the ascending sort is stable (numpy introsort runs plain
insertion sort on the small-array regime), modelled as a stable insertion
sort followed by `reverse`. -/
def sortByScoreDesc (l : List ScoredPosting) : List ScoredPosting :=
  (List.insertionSort scoreLE l).reverse

/-- `InternshipFilter.filter_and_rank` (filter.py lines 35-80): early return
on an empty input, filters, early return on an empty filtered frame, score,
sort descending by final score, truncate with `head(top_n)`. -/
def filter_and_rank (internships : List Posting) (user_skills : List String)
    (min_stipend : ℚ) (max_days_old : ℤ) (top_n : ℕ) : List ScoredPosting :=
  if internships.isEmpty then []
  else
    let df := applyFilters internships min_stipend max_days_old
    if df.isEmpty then []
    else (sortByScoreDesc (calcRankingScores df user_skills)).take top_n

/-- `filter_and_rank` together with the caller's view of the argument
collection after the call returns.  The source copies the input at filter.py
line 61 (`df = internships.copy()`) and every subsequent mutation (the column
assignments of `_calculate_ranking_scores`) targets the copy, so the second
component — the caller's collection after the call — is the untouched input. -/
def filter_and_rank_frame (internships : List Posting) (user_skills : List String)
    (min_stipend : ℚ) (max_days_old : ℤ) (top_n : ℕ) :
    List ScoredPosting × List Posting :=
  (filter_and_rank internships user_skills min_stipend max_days_old top_n, internships)

/-- `InternshipScraper.internship_keywords` (scraper.py lines 20-23). -/
def internship_keywords : List String :=
  ["intern", "internship", "co-op", "coop", "trainee", "apprentice",
   "entry level", "junior", "graduate", "student", "summer intern"]

/-- `InternshipScraper._calculate_relevance_score` (scraper.py lines 270-310):
base score from the fraction of skills found in the concatenated lower-cased
title/description/company text, +1 per skill found in the title, +0.5 per
internship keyword found in the title, capped at 10, rounded to 2 decimals. -/
def calcRelevanceScore (title description company : String)
    (user_skills : List String) : ℚ :=
  let t := (pyToLower title)
  let d := (pyToLower description)
  let c := (pyToLower company)
  let text := t ++ " " ++ d ++ " " ++ c
  let skill_matches := (user_skills.filter (fun s => strContains text (pyToLower s))).length
  let base_score : ℚ := ((skill_matches : ℚ) / (user_skills.length : ℚ)) * 10
  let title_bonus : ℚ := ((user_skills.filter (fun s => strContains t (pyToLower s))).length : ℚ)
  let internship_bonus : ℚ :=
    ((internship_keywords.filter (fun k => strContains t k)).length : ℚ) * (1/2)
  round2 (min 10 (base_score + title_bonus + internship_bonus))

/-- The relevance formula exactly as the specification words it (spec §4.3):
count matching skills in the lower-cased concatenated text, base =
(matches/total)·10, +1 per skill in the title, +0.5 per internship keyword in
the title, final = min(10, base + title bonus + keyword bonus) rounded to 2
decimals.  Stated with `countP` for comparison against the source embedding. -/
def specRelevanceFormula (title description company : String)
    (user_skills : List String) : ℚ :=
  let t := (pyToLower title)
  let text := t ++ " " ++ (pyToLower description) ++ " " ++ (pyToLower company)
  let nMatches : ℚ := (user_skills.countP (fun s => strContains text (pyToLower s)) : ℚ)
  let base : ℚ := (nMatches / (user_skills.length : ℚ)) * 10
  let titleBonus : ℚ := (user_skills.countP (fun s => strContains t (pyToLower s)) : ℚ)
  let keywordBonus : ℚ := (internship_keywords.countP (fun k => strContains t k) : ℚ) / 2
  round2 (min 10 (base + titleBonus + keywordBonus))

/-- Count of leading ASCII digits, used by the numeric-pattern matcher. -/
def countLeadingDigits (cs : List Char) : ℕ := (cs.takeWhile Char.isDigit).length

/-- All ways the regex piece `\d{1,3}` can match at the start of `cs`,
as (consumed, rest) pairs in greedy backtracking order (3 digits first). -/
def matchDigits13 (cs : List Char) : List (List Char × List Char) :=
  let n := min 3 (countLeadingDigits cs)
  (List.range n).map (fun i => (cs.take (n - i), cs.drop (n - i)))

/-- Maximal number of leading `,\d\d\d` groups, for the regex piece
`(?:,\d{3})*`. -/
def countCommaGroups : List Char → ℕ
  | ',' :: a :: b :: c :: rest =>
    if a.isDigit && b.isDigit && c.isDigit then countCommaGroups rest + 1 else 0
  | _ => 0

/-- All ways the regex piece `(?:,\d{3})*` can match at the start of `cs`,
in greedy backtracking order (most groups first). -/
def commaCandidates (cs : List Char) : List (List Char × List Char) :=
  let k := countCommaGroups cs
  (List.range (k + 1)).map (fun i => (cs.take (4 * (k - i)), cs.drop (4 * (k - i))))

/-- All ways the regex piece `(?:\.\d{2})?` can match at the start of `cs`,
in greedy backtracking order (with the fraction first). -/
def fracCandidates (cs : List Char) : List (List Char × List Char) :=
  match cs with
  | '.' :: a :: b :: rest =>
    if a.isDigit && b.isDigit then [([('.' : Char), a, b], rest), ([], cs)]
    else [([], cs)]
  | _ => [([], cs)]

/-- All candidate matches of the capture group
`(\d{1,3}(?:,\d{3})*(?:\.\d{2})?)` at the start of `cs`, as
(captured text, rest) pairs in the regex engine's backtracking order. -/
def matchNumber (cs : List Char) : List (List Char × List Char) :=
  (matchDigits13 cs).flatMap (fun dc =>
    (commaCandidates dc.2).flatMap (fun cc =>
      (fracCandidates cc.2).map (fun fc =>
        (dc.1 ++ cc.1 ++ fc.1, fc.2))))

/-- First capture of `re.findall` for the pattern
`\$(\d{1,3}(?:,\d{3})*(?:\.\d{2})?)` (scraper.py line 215): scan left to
right for a dollar sign followed by a numeric match. -/
def firstDollarMatch : List Char → Option (List Char)
  | [] => none
  | '$' :: rest =>
    match matchNumber rest with
    | pr :: _ => some pr.1
    | [] => firstDollarMatch rest
  | _ :: rest => firstDollarMatch rest

/-- Test for the alternation `(?:hour|hr|/h)` at the start of `cs`. -/
def hourAlts (cs : List Char) : Bool :=
  (['h','o','u','r'] : List Char).isPrefixOf cs ||
  (['h','r'] : List Char).isPrefixOf cs ||
  (['/','h'] : List Char).isPrefixOf cs

/-- Test for the alternation `(?:month|mo)` at the start of `cs`. -/
def monthAlts (cs : List Char) : Bool :=
  (['m','o','n','t','h'] : List Char).isPrefixOf cs ||
  (['m','o'] : List Char).isPrefixOf cs

/-- Suffix `\s*(?:per\s+)?` followed by the given alternation, at the start
of `cs`.  Whitespace runs are consumed maximally, which is faithful because
neither `per` nor either alternation starts with whitespace; when the `per`
branch fails the optional group is skipped, as the regex engine backtracks. -/
def rateSuffix (alts : List Char → Bool) (cs : List Char) : Bool :=
  let cs1 := cs.dropWhile pyIsSpace
  if (['p','e','r'] : List Char).isPrefixOf cs1 then
    let cs2 := cs1.drop 3
    if (cs2.takeWhile pyIsSpace).length ≥ 1 then alts (cs2.dropWhile pyIsSpace)
    else alts cs1
  else alts cs1

/-- First capture of `re.findall` for the hourly/monthly rate patterns
(scraper.py lines 216-217): scan left to right; at each position try the
numeric-capture candidates in backtracking order against the rate suffix. -/
def firstRateMatch (alts : List Char → Bool) : List Char → Option (List Char)
  | [] => none
  | c :: rest =>
    match (matchNumber (c :: rest)).find? (fun pr => rateSuffix alts pr.2) with
    | some pr => some pr.1
    | none => firstRateMatch alts rest

/-- The first numeric capture over the three salary patterns in source order:
dollar amounts, hourly rates, monthly rates (scraper.py lines 214-222). -/
def firstNumericMatch (text : List Char) : Option (List Char) :=
  match firstDollarMatch text with
  | some cap => some cap
  | none =>
    match firstRateMatch hourAlts text with
    | some cap => some cap
    | none => firstRateMatch monthAlts text

/-- Numeric value of a digit string. -/
def digitsVal (cs : List Char) : ℕ :=
  cs.foldl (fun n c => 10 * n + (c.toNat - ('0').toNat)) 0

/-- Python `float(amount_str.replace(',', ''))` on a captured amount
(scraper.py lines 225-226): strip commas, split at the decimal point. -/
def parseAmount (cs : List Char) : ℚ :=
  let cs2 := cs.filter (fun c => !(c == ','))
  let ip := cs2.takeWhile (fun c => !(c == '.'))
  let fp := (cs2.dropWhile (fun c => !(c == '.'))).drop 1
  (digitsVal ip : ℚ) + (digitsVal fp : ℚ) / ((10 : ℚ) ^ fp.length)

/-- The qualifier test `'hour' in description or 'hr' in description or
'/h' in description` (scraper.py line 229), on the lower-cased description. -/
def hourlyQualified (d : String) : Bool :=
  strContains d ("hour") || strContains d ("hr") || strContains d ("/h")

/-- The qualifier test `'month' in description or 'mo' in description`
(scraper.py line 233), on the lower-cased description. -/
def monthlyQualified (d : String) : Bool :=
  strContains d ("month") || strContains d ("mo")

/-- `InternshipScraper._extract_stipend` (scraper.py lines 200-242): take the
first numeric capture over the three patterns on the lower-cased
description-plus-title text; multiply by 160 when the description mentions an
hourly qualifier and by 12 when it mentions a monthly qualifier; the final
`return amount / 12` divides every extracted amount by 12; no match yields 0. -/
def extract_stipend (description title : String) : ℚ :=
  let d := (pyToLower description)
  let t := (pyToLower title)
  let text := (d ++ " " ++ t).toList
  match firstNumericMatch text with
  | none => 0
  | some cap =>
    let a0 := parseAmount cap
    let a1 := if hourlyQualified d then a0 * 160 else a0
    let a2 := if monthlyQualified d then a1 * 12 else a1
    a2 / 12

/-- `InternshipScraper._calculate_days_old` (scraper.py lines 244-268) with
dates as integer day counts: `none` models a missing or unparseable
`date_posted` (both the NaN branch and the exception branch), otherwise the
result is `max(0, (now - date_posted).days)`. -/
def calc_days_old (date_posted : Option ℤ) (now : ℤ) : ℤ :=
  match date_posted with
  | none => 999
  | some dp => max 0 (now - dp)

/-- A fully populated posting used to instantiate hypotheses concretely. -/
def samplePosting : Posting :=
  { title := some ("a-job"), company := some ("acme"), location := some ("remote"),
    description := some ("desc"), apply_url := some ("http://a"), stipend := some 100,
    days_old := some 1, relevance_score := some 5 }

/-- A second posting identical to `samplePosting` except for its title, so the
two receive identical final scores. -/
def samplePostingB : Posting := { samplePosting with title := some ("b-job") }

/-- A posting whose age is the 999 unknown-age sentinel. -/
def sentinelPosting : Posting := { samplePosting with days_old := some 999 }

/-- A posting with no stipend data, making the column maximum 0. -/
def noStipendPosting : Posting := { samplePosting with stipend := none }

/-- The scored row produced for `samplePosting` in the two-posting tie frame. -/
def sampleScoredA : ScoredPosting :=
  scoreOne (maxStipend ([samplePosting, samplePostingB].map fillStipend))
    (fillStipend samplePosting)

/-- The scored row produced for `samplePostingB` in the two-posting tie frame. -/
def sampleScoredB : ScoredPosting :=
  scoreOne (maxStipend ([samplePosting, samplePostingB].map fillStipend))
    (fillStipend samplePostingB)

theorem ratFloor_eq (x : ℚ) : ratFloor x = ⌊x⌋ := Rat.floor_def.symm

theorem roundHalfEven_nonneg (x : ℚ) (hx : 0 ≤ x) : 0 ≤ roundHalfEven x := by
  unfold roundHalfEven
  dsimp only
  have hf : (0 : ℤ) ≤ ratFloor x := by
    rw [ratFloor_eq]; exact Int.floor_nonneg.mpr hx
  split_ifs <;> omega

theorem roundHalfEven_le (x : ℚ) (c : ℤ) (hx : x ≤ (c : ℚ)) : roundHalfEven x ≤ c := by
  unfold roundHalfEven
  dsimp only
  have hf : ratFloor x ≤ c := by
    rw [ratFloor_eq]
    calc ⌊x⌋ ≤ ⌊(c : ℚ)⌋ := Int.floor_le_floor hx
    _ = c := Int.floor_intCast c
  have hfl : (ratFloor x : ℚ) ≤ x := by rw [ratFloor_eq]; exact Int.floor_le x
  split_ifs with h1 h2 h3
  · exact hf
  · have hlt : (ratFloor x : ℚ) < (c : ℚ) := by linarith
    have : ratFloor x < c := by exact_mod_cast hlt
    omega
  · exact hf
  · have heq : x - (ratFloor x : ℚ) = 1/2 := le_antisymm (not_lt.mp h2) (not_lt.mp h1)
    have hlt : (ratFloor x : ℚ) < (c : ℚ) := by linarith
    have : ratFloor x < c := by exact_mod_cast hlt
    omega

theorem round2_nonneg (x : ℚ) (hx : 0 ≤ x) : 0 ≤ round2 x := by
  unfold round2
  have h := roundHalfEven_nonneg (x * 100) (by linarith)
  have : (0 : ℚ) ≤ (roundHalfEven (x * 100) : ℚ) := by exact_mod_cast h
  linarith

theorem round2_le_one (x : ℚ) (hx : x ≤ 1) : round2 x ≤ 1 := by
  unfold round2
  have h := roundHalfEven_le (x * 100) 100 (by push_cast; linarith)
  rw [div_le_one (by norm_num)]
  exact_mod_cast h

theorem clip01_nonneg (z : ℚ) : 0 ≤ max 0 (min 1 z) := le_max_left 0 _

theorem clip01_le_one (z : ℚ) : max 0 (min 1 z) ≤ 1 :=
  max_le (by norm_num) (min_le_left 1 z)

theorem mem_ageFilterStep_of_sentinel {p : Posting} {ps : List Posting} (mdo : ℤ)
    (hp : p ∈ ps) (h999 : p.days_old = some 999) : p ∈ ageFilterStep ps mdo := by
  unfold ageFilterStep
  split_ifs with h
  · exact List.mem_filter.mpr ⟨hp, by simp [agePred, h999]⟩
  · exact hp

/-- Claim C1: for every input postings collection, skills list, minimum
stipend, maximum age and `top_n`, the list returned by `filter_and_rank` has
length at most `top_n` and is sorted non-increasing by `final_score`. -/
theorem filter_and_rank_bounded_and_sorted (internships : List Posting)
    (user_skills : List String) (min_stipend : ℚ) (max_days_old : ℤ) (top_n : ℕ) :
    (filter_and_rank internships user_skills min_stipend max_days_old top_n).length ≤ top_n ∧
    (filter_and_rank internships user_skills min_stipend max_days_old top_n).Pairwise
      (fun a b => b.final_score ≤ a.final_score) := by
  unfold filter_and_rank
  dsimp only
  split_ifs with h1 h2
  · simp
  · simp
  · constructor
    · rw [List.length_take]; exact min_le_left _ _
    · have hs : (sortByScoreDesc
          (calcRankingScores (applyFilters internships min_stipend max_days_old)
            user_skills)).Pairwise (fun a b => b.final_score ≤ a.final_score) := by
        unfold sortByScoreDesc
        rw [List.pairwise_reverse]
        exact List.sorted_insertionSort scoreLE _
      exact List.Pairwise.sublist (List.take_sublist _ _) hs

/-- Claim C3: a posting whose age is the 999 unknown-age sentinel is never
removed by the age-filtering step; when `max_days_old < 999` the step keeps
exactly the postings with known age at most `max_days_old` or equal to the
sentinel, and when `max_days_old ≥ 999` the step is the identity. -/
theorem age_filter_policy (ps : List Posting) (max_days_old : ℤ) :
    (∀ p ∈ ps, p.days_old = some 999 → p ∈ ageFilterStep ps max_days_old) ∧
    (max_days_old < 999 → ∀ p, p ∈ ageFilterStep ps max_days_old ↔
      p ∈ ps ∧ ∃ d : ℤ, p.days_old = some d ∧ (d ≤ max_days_old ∨ d = 999)) ∧
    (999 ≤ max_days_old → ageFilterStep ps max_days_old = ps) := by
  refine ⟨fun p hp h999 => mem_ageFilterStep_of_sentinel max_days_old hp h999, ?_, ?_⟩
  · intro hlt p
    unfold ageFilterStep
    rw [if_pos hlt, List.mem_filter]
    constructor
    · rintro ⟨hp, hpred⟩
      refine ⟨hp, ?_⟩
      unfold agePred at hpred
      rcases hd : p.days_old with _ | d
      · rw [hd] at hpred; exact absurd hpred (by simp)
      · rw [hd] at hpred
        simp only [Bool.or_eq_true, decide_eq_true_eq] at hpred
        exact ⟨d, rfl, hpred⟩
    · rintro ⟨hp, d, hd, hor⟩
      exact ⟨hp, by simp [agePred, hd]; exact hor⟩
  · intro hge
    unfold ageFilterStep
    rw [if_neg (by omega)]

/-- Claim C3 witness: the sentinel-aged posting survives a strict age filter,
the membership characterization holds for it, and a `max_days_old` of 1000
disables age filtering. -/
theorem age_filter_policy_witness :
    sentinelPosting ∈ ageFilterStep [sentinelPosting] 5 ∧
    (sentinelPosting ∈ ageFilterStep [sentinelPosting] 5 ↔
      sentinelPosting ∈ [sentinelPosting] ∧
      ∃ d : ℤ, sentinelPosting.days_old = some d ∧ (d ≤ 5 ∨ d = 999)) ∧
    ageFilterStep [sentinelPosting] 1000 = [sentinelPosting] :=
  ⟨(age_filter_policy [sentinelPosting] 5).1 sentinelPosting (by decide) rfl,
   (age_filter_policy [sentinelPosting] 5).2.1 (by norm_num) sentinelPosting,
   (age_filter_policy [sentinelPosting] 1000).2.2 (by norm_num)⟩

/-- Claim C9: `filter_and_rank` leaves the caller's collection unchanged and
its result is a pure function of its inputs; the embedding records the
caller's view after the call as the second component of
`filter_and_rank_frame`, which equals the input because the source operates
on the copy taken at filter.py line 61. -/
theorem filter_and_rank_frame_pure (internships : List Posting)
    (user_skills : List String) (min_stipend : ℚ) (max_days_old : ℤ) (top_n : ℕ) :
    (filter_and_rank_frame internships user_skills min_stipend max_days_old top_n).2 =
      internships ∧
    (filter_and_rank_frame internships user_skills min_stipend max_days_old top_n).1 =
      filter_and_rank internships user_skills min_stipend max_days_old top_n :=
  ⟨rfl, rfl⟩

/-- Claim C10: the value 999 is both the unknown-age sentinel and an
attainable age.  Any posting carrying `days_old = 999` — whether genuinely
999 days old or of unknown age — survives the age filter for every
`max_days_old`; the recency computation maps 999 to 30 days, yielding a
recency score of 0; and `_calculate_days_old` returns 999 both for a posting
dated exactly 999 days before now and for a missing date. -/
theorem sentinel_999_collision (ps : List Posting) (max_days_old : ℤ)
    (p : Posting) (hp : p ∈ ps) (h999 : p.days_old = some 999) :
    p ∈ ageFilterStep ps max_days_old ∧
    calcRecencyScore (some 999) = 0 ∧
    calc_days_old (some 0) 999 = 999 ∧
    calc_days_old none 999 = 999 :=
  ⟨mem_ageFilterStep_of_sentinel max_days_old hp h999, by decide, by decide, by decide⟩

/-- Claim C10 witness: instantiation at the sentinel-aged posting with a
strict age limit. -/
theorem sentinel_999_collision_witness :
    sentinelPosting ∈ ageFilterStep [sentinelPosting] 0 ∧
    calcRecencyScore (some 999) = 0 ∧
    calc_days_old (some 0) 999 = 999 ∧
    calc_days_old none 999 = 999 :=
  sentinel_999_collision [sentinelPosting] 0 sentinelPosting (by decide) rfl

theorem mem_applyFilters {p : Posting} {ps : List Posting} {min_stipend : ℚ}
    {max_days_old : ℤ} (h : p ∈ applyFilters ps min_stipend max_days_old) :
    p ∈ ps ∧ (0 < min_stipend → stipendPred min_stipend p = true) ∧
    (max_days_old < 999 → agePred max_days_old p = true) ∧
    criticalFieldsPred p = true ∧ urlPred p = true ∧ relevancePred p = true := by
  unfold applyFilters at h
  rw [List.mem_filter] at h
  obtain ⟨h, hrp⟩ := h
  rw [List.mem_filter] at h
  obtain ⟨h, hup⟩ := h
  rw [List.mem_filter] at h
  obtain ⟨h, hcf⟩ := h
  unfold ageFilterStep at h
  by_cases ha : max_days_old < 999
  · rw [if_pos ha, List.mem_filter] at h
    obtain ⟨h, hap⟩ := h
    unfold stipendFilterStep at h
    by_cases hs : 0 < min_stipend
    · rw [if_pos hs, List.mem_filter] at h
      exact ⟨h.1, fun _ => h.2, fun _ => hap, hcf, hup, hrp⟩
    · rw [if_neg hs] at h
      exact ⟨h, fun hc => absurd hc hs, fun _ => hap, hcf, hup, hrp⟩
  · rw [if_neg ha] at h
    unfold stipendFilterStep at h
    by_cases hs : 0 < min_stipend
    · rw [if_pos hs, List.mem_filter] at h
      exact ⟨h.1, fun _ => h.2, fun hc => absurd hc ha, hcf, hup, hrp⟩
    · rw [if_neg hs] at h
      exact ⟨h, fun hc => absurd hc hs, fun hc => absurd hc ha, hcf, hup, hrp⟩

theorem applyFilters_eq_self {ps : List Posting} {min_stipend : ℚ} {max_days_old : ℤ}
    (hall : ∀ p ∈ ps, (0 < min_stipend → stipendPred min_stipend p = true) ∧
      (max_days_old < 999 → agePred max_days_old p = true) ∧
      criticalFieldsPred p = true ∧ urlPred p = true ∧ relevancePred p = true) :
    applyFilters ps min_stipend max_days_old = ps := by
  unfold applyFilters stipendFilterStep ageFilterStep
  have h1 : (if 0 < min_stipend then ps.filter (stipendPred min_stipend) else ps) = ps := by
    split_ifs with hs
    · exact List.filter_eq_self.mpr (fun p hp => (hall p hp).1 hs)
    · rfl
  rw [h1]
  have h2 : (if max_days_old < 999 then ps.filter (agePred max_days_old) else ps) = ps := by
    split_ifs with ha
    · exact List.filter_eq_self.mpr (fun p hp => (hall p hp).2.1 ha)
    · rfl
  rw [h2]
  rw [List.filter_eq_self.mpr (fun p hp => (hall p hp).2.2.1)]
  rw [List.filter_eq_self.mpr (fun p hp => (hall p hp).2.2.2.1)]
  rw [List.filter_eq_self.mpr (fun p hp => (hall p hp).2.2.2.2)]

/-- Claim C7: the filtering stage is idempotent — applying `_apply_filters`
twice with the same configuration equals applying it once. -/
theorem applyFilters_idempotent (ps : List Posting) (min_stipend : ℚ)
    (max_days_old : ℤ) :
    applyFilters (applyFilters ps min_stipend max_days_old) min_stipend max_days_old =
      applyFilters ps min_stipend max_days_old :=
  applyFilters_eq_self (fun p hp => (mem_applyFilters hp).2)

theorem mem_calcRankingScores {sp : ScoredPosting} {ps : List Posting}
    {user_skills : List String} (h : sp ∈ calcRankingScores ps user_skills) :
    ∃ p ∈ ps, sp = scoreOne (maxStipend (ps.map fillStipend)) (fillStipend p) := by
  unfold calcRankingScores at h
  dsimp only at h
  rw [List.mem_map] at h
  obtain ⟨q, hq, rfl⟩ := h
  rw [List.mem_map] at hq
  obtain ⟨p, hp, rfl⟩ := hq
  exact ⟨p, hp, rfl⟩

theorem calcCompanyReputation_bounds (c : Option String) :
    0 ≤ calcCompanyReputation c ∧ calcCompanyReputation c ≤ 1 := by
  unfold calcCompanyReputation
  rcases c with _ | s
  · norm_num
  · dsimp only
    split_ifs <;> norm_num

theorem calcRecencyScore_bounds (d : Option ℤ) :
    0 ≤ calcRecencyScore d ∧ calcRecencyScore d ≤ 1 :=
  ⟨clip01_nonneg _, clip01_le_one _⟩

/-- Claim C2: when every posting of the candidate set has relevance score in
[0,10], non-negative stipend, and an age that is a non-negative integer or
the 999 sentinel, every scored row has its four normalized sub-scores and its
final score in [0,1]. -/
theorem ranking_scores_in_unit_interval (ps : List Posting)
    (user_skills : List String) (sp : ScoredPosting)
    (hrel : ∀ p ∈ ps, ∀ r : ℚ, p.relevance_score = some r → 0 ≤ r ∧ r ≤ 10)
    (hstip : ∀ p ∈ ps, ∀ s : ℚ, p.stipend = some s → 0 ≤ s)
    (hage : ∀ p ∈ ps, ∀ d : ℤ, p.days_old = some d → 0 ≤ d ∨ d = 999)
    (hsp : sp ∈ calcRankingScores ps user_skills) :
    (0 ≤ sp.relevance_normalized ∧ sp.relevance_normalized ≤ 1) ∧
    (0 ≤ sp.stipend_normalized ∧ sp.stipend_normalized ≤ 1) ∧
    (0 ≤ sp.recency_normalized ∧ sp.recency_normalized ≤ 1) ∧
    (0 ≤ sp.company_reputation_normalized ∧ sp.company_reputation_normalized ≤ 1) ∧
    (0 ≤ sp.final_score ∧ sp.final_score ≤ 1) := by
  obtain ⟨p, hp, rfl⟩ := mem_calcRankingScores hsp
  unfold scoreOne
  dsimp only
  have hrn : 0 ≤ (fillStipend p).relevance_score.getD 0 / 10 ∧
      (fillStipend p).relevance_score.getD 0 / 10 ≤ 1 := by
    have hpres : (fillStipend p).relevance_score = p.relevance_score := rfl
    rw [hpres]
    rcases hr : p.relevance_score with _ | r
    · norm_num
    · obtain ⟨h0, h10⟩ := hrel p hp r hr
      constructor
      · simpa using div_nonneg h0 (by norm_num)
      · simp only [Option.getD_some]
        rw [div_le_one (by norm_num)]
        exact h10
  have hsn : 0 ≤ (if maxStipendPos (maxStipend (ps.map fillStipend)) then
        max 0 (min 1 ((fillStipend p).stipend.getD 0 / (maxStipend (ps.map fillStipend)).getD 0))
      else 0) ∧
      (if maxStipendPos (maxStipend (ps.map fillStipend)) then
        max 0 (min 1 ((fillStipend p).stipend.getD 0 / (maxStipend (ps.map fillStipend)).getD 0))
      else 0) ≤ 1 := by
    split_ifs
    · exact ⟨clip01_nonneg _, clip01_le_one _⟩
    · norm_num
  have hcn := calcRecencyScore_bounds (fillStipend p).days_old
  have hpn := calcCompanyReputation_bounds (fillStipend p).company
  refine ⟨hrn, hsn, hcn, hpn, ?_, ?_⟩
  · exact round2_nonneg _ (by nlinarith [hrn.1, hsn.1, hcn.1, hpn.1])
  · exact round2_le_one _ (by nlinarith [hrn.1, hrn.2, hsn.1, hsn.2, hcn.1, hcn.2, hpn.1, hpn.2])

/-- Claim C2 witness: instantiation at a one-posting candidate set with
relevance 5, stipend 100 and age 1. -/
theorem ranking_scores_in_unit_interval_witness :
    (0 ≤ sampleScoredA.relevance_normalized ∧ sampleScoredA.relevance_normalized ≤ 1) ∧
    (0 ≤ sampleScoredA.stipend_normalized ∧ sampleScoredA.stipend_normalized ≤ 1) ∧
    (0 ≤ sampleScoredA.recency_normalized ∧ sampleScoredA.recency_normalized ≤ 1) ∧
    (0 ≤ sampleScoredA.company_reputation_normalized ∧
      sampleScoredA.company_reputation_normalized ≤ 1) ∧
    (0 ≤ sampleScoredA.final_score ∧ sampleScoredA.final_score ≤ 1) :=
  ranking_scores_in_unit_interval [samplePosting, samplePostingB] [("python")]
    sampleScoredA
    (by intro p hp r hr
        fin_cases hp <;> (injection hr with h5; rw [← h5]; norm_num))
    (by intro p hp s hs
        fin_cases hp <;> (injection hs with h100; rw [← h100]; norm_num))
    (by intro p hp d hd
        fin_cases hp <;> (injection hd with h1; omega))
    (by decide)

theorem maxStipend_map_fillStipend (ps : List Posting) :
    maxStipend (ps.map fillStipend) = maxStipend ps := by
  unfold maxStipend fillStipend
  rw [List.map_map]
  rfl

/-- Claim C6: when the fillna-ed stipend maximum over the candidate set is 0,
every scored row's normalized stipend is 0 and the guarded branch avoids the
division; when the maximum is positive, the normalized stipend is the row's
stipend divided by the maximum, clamped to [0,1]. -/
theorem stipend_normalization_guarded (ps : List Posting)
    (user_skills : List String) (sp : ScoredPosting)
    (hsp : sp ∈ calcRankingScores ps user_skills) :
    (maxStipend ps = some 0 → sp.stipend_normalized = 0) ∧
    (∀ m : ℚ, maxStipend ps = some m → 0 < m →
      sp.stipend_normalized = max 0 (min 1 (sp.posting.stipend.getD 0 / m))) := by
  obtain ⟨p, hp, rfl⟩ := mem_calcRankingScores hsp
  rw [maxStipend_map_fillStipend] at *
  constructor
  · intro h0
    unfold scoreOne
    dsimp only
    rw [h0]
    rw [if_neg (by unfold maxStipendPos; simp)]
  · intro m hm hmpos
    unfold scoreOne
    dsimp only
    rw [hm]
    rw [if_pos (by unfold maxStipendPos; simpa using hmpos)]
    rfl

/-- Claim C6 witness: a candidate set with no stipend data has maximum 0 and
normalized stipend 0; a candidate set with maximum 100 divides by 100. -/
theorem stipend_normalization_guarded_witness :
    (scoreOne (maxStipend ([noStipendPosting].map fillStipend))
      (fillStipend noStipendPosting)).stipend_normalized = 0 ∧
    sampleScoredA.stipend_normalized =
      max 0 (min 1 (sampleScoredA.posting.stipend.getD 0 / 100)) :=
  ⟨(stipend_normalization_guarded [noStipendPosting] []
      (scoreOne (maxStipend ([noStipendPosting].map fillStipend))
        (fillStipend noStipendPosting)) (by decide)).1 (by decide),
   (stipend_normalization_guarded [samplePosting, samplePostingB] [("python")]
      sampleScoredA (by decide)).2 100 (by decide) (by norm_num)⟩

/-- Claim C4 counterexample: for the hourly-qualified description
"pay: $120 per hour", the code extracts 120, multiplies by 160, and then the
unconditional final division by 12 yields 1600 — not the hourly amount times
160 (= 19200) that the claim asserts as the monthly-equivalent figure. -/
theorem extract_stipend_counterexample :
    extract_stipend ("pay: $120 per hour") ("x") = 1600 ∧
    ¬ ((1600 : ℚ) = 120 * 160) :=
  ⟨by decide, by norm_num⟩

/-- Claim C4 amended: compensation extraction takes the first numeric match
of the three salary patterns in order; the matched amount is multiplied by
160 when the description carries hourly phrasing and by 12 when it carries
monthly phrasing, and the result is then always divided by 12 — so a
monthly-qualified amount is returned unchanged (×12/12), an hourly-qualified
amount becomes ×160/12, an unqualified amount becomes ÷12, and the absence of
any match yields 0. -/
theorem extract_stipend_amended (description title : String) :
    (firstNumericMatch ((pyToLower description ++ " " ++ pyToLower title).toList) = none →
      extract_stipend description title = 0) ∧
    (∀ cap, firstNumericMatch
        ((pyToLower description ++ " " ++ pyToLower title).toList) = some cap →
      extract_stipend description title =
        parseAmount cap * (if hourlyQualified (pyToLower description) then 160 else 1) *
          (if monthlyQualified (pyToLower description) then 12 else 1) / 12) := by
  constructor
  · intro h
    unfold extract_stipend
    dsimp only
    rw [h]
  · intro cap h
    unfold extract_stipend
    dsimp only
    rw [h]
    split_ifs <;> ring

/-- Claim C4 amended witness: instantiation at the hourly counterexample
input, whose first numeric capture is the digit string 120. -/
theorem extract_stipend_amended_witness :
    extract_stipend ("pay: $120 per hour") ("x") =
      parseAmount ([('1' : Char), '2', '0']) *
        (if hourlyQualified (pyToLower ("pay: $120 per hour")) then 160 else 1) *
        (if monthlyQualified (pyToLower ("pay: $120 per hour")) then 12 else 1) / 12 :=
  (extract_stipend_amended ("pay: $120 per hour") ("x")).2
    ([('1' : Char), '2', '0']) (by decide)

/-- Claim C5 counterexample: two postings that differ only in title pass the
filters in insertion order and receive the same final score 0.72, yet the
ranked output lists them in the reverse of insertion order. -/
theorem tie_order_counterexample :
    applyFilters [samplePosting, samplePostingB] 0 999 =
      [samplePosting, samplePostingB] ∧
    (filter_and_rank [samplePosting, samplePostingB] [("python")] 0 999 5).map
      (fun sp => sp.final_score) = [18/25, 18/25] ∧
    (filter_and_rank [samplePosting, samplePostingB] [("python")] 0 999 5).map
      (fun sp => sp.posting.title) = [some ("b-job"), some ("a-job")] :=
  ⟨by decide, by decide, by decide⟩

/-- Claim C5 amended: scored rows with equal final score appear in the ranked
sequence in the reverse of their insertion order in the filtered collection,
because the descending sort is a stable ascending sort whose result is
reversed; the returned list is the first `top_n` entries of that sequence. -/
theorem tie_order_reversed (ps : List Posting) (user_skills : List String)
    (min_stipend : ℚ) (max_days_old : ℤ) (top_n : ℕ) (a b : ScoredPosting)
    (hab : List.Sublist [a, b]
      (calcRankingScores (applyFilters ps min_stipend max_days_old) user_skills))
    (heq : a.final_score = b.final_score) :
    List.Sublist [b, a] (sortByScoreDesc
      (calcRankingScores (applyFilters ps min_stipend max_days_old) user_skills)) ∧
    filter_and_rank ps user_skills min_stipend max_days_old top_n =
      (sortByScoreDesc
        (calcRankingScores (applyFilters ps min_stipend max_days_old)
          user_skills)).take top_n := by
  constructor
  · unfold sortByScoreDesc
    have hpair : List.Sublist [a, b] (List.insertionSort scoreLE
        (calcRankingScores (applyFilters ps min_stipend max_days_old) user_skills)) :=
      List.pair_sublist_insertionSort (le_of_eq heq) hab
    have := hpair.reverse
    simpa using this
  · have hscored : calcRankingScores (applyFilters ps min_stipend max_days_old)
        user_skills ≠ [] := by
      intro hnil
      rw [hnil] at hab
      exact absurd (List.sublist_nil.mp hab) (by simp)
    have hfiltered : applyFilters ps min_stipend max_days_old ≠ [] := by
      intro hnil
      apply hscored
      rw [hnil]
      rfl
    have hps : ps ≠ [] := by
      intro hnil
      apply hfiltered
      rw [hnil]
      unfold applyFilters stipendFilterStep ageFilterStep
      split_ifs <;> rfl
    unfold filter_and_rank
    dsimp only
    rw [if_neg (by simpa using hps), if_neg (by simpa using hfiltered)]

/-- Claim C5 amended witness: instantiation at the two equal-scoring
postings; the sorted sequence contains them in reverse insertion order and
the pipeline output is its 5-element truncation. -/
theorem tie_order_reversed_witness :
    List.Sublist [sampleScoredB, sampleScoredA] (sortByScoreDesc
      (calcRankingScores (applyFilters [samplePosting, samplePostingB] 0 999)
        [("python")])) ∧
    filter_and_rank [samplePosting, samplePostingB] [("python")] 0 999 5 =
      (sortByScoreDesc
        (calcRankingScores (applyFilters [samplePosting, samplePostingB] 0 999)
          [("python")])).take 5 :=
  tie_order_reversed [samplePosting, samplePostingB] [("python")] 0 999 5
    sampleScoredA sampleScoredB
    (by have h : calcRankingScores (applyFilters [samplePosting, samplePostingB] 0 999)
          [("python")] = [sampleScoredA, sampleScoredB] := by decide
        rw [h])
    (by decide)

/-- Claim C8: for every posting and non-empty skills list, the relevance
score is min(10, base + title bonus + keyword bonus) rounded to 2 decimals,
with base the fraction of skills found in the concatenated lower-cased
title/description/company text times 10, +1 per skill found in the title and
+0.5 per internship keyword found in the title. -/
theorem relevance_score_formula (title description company : String)
    (user_skills : List String) (h : user_skills ≠ []) :
    calcRelevanceScore title description company user_skills =
      specRelevanceFormula title description company user_skills := by
  unfold calcRelevanceScore specRelevanceFormula
  dsimp only
  rw [List.countP_eq_length_filter, List.countP_eq_length_filter,
    List.countP_eq_length_filter]
  ring_nf

/-- Claim C8 witness: instantiation at a concrete posting and the singleton
skill list python. -/
theorem relevance_score_formula_witness :
    ([("python")] : List String) ≠ [] ∧
    calcRelevanceScore ("Python Intern") ("great role") ("Acme")
        [("python")] =
      specRelevanceFormula ("Python Intern") ("great role") ("Acme")
        [("python")] :=
  ⟨by decide, relevance_score_formula ("Python Intern") ("great role") ("Acme")
    [("python")] (by decide)⟩
